import Mathlib

/-!
Verification of the voice-command task processor
(`py_backend/clara_task_processor.py`).

Strings are modelled as `List Char` (`Str`).  Python's `str.lower` is
modelled by `Char.toLower` per character and `str.strip` by dropping
leading and trailing whitespace; `re.search` is modelled by a
backtracking regular-expression engine (`reMatch` / `reSearch`) over an
abstract syntax (`Re`) into which each pattern string of the source is
transliterated.  The engine scans candidate start positions left to
right and, at each position, explores alternatives in preference order
(alternation left first, quantifiers greedy first), which is the
semantics of Python's `re` for the pattern features used by the source
(literals, `(?:...|...)`, `(...)`, `?`, `+`, `*` over character
classes).
-/

set_option linter.unusedVariables false

/-- Text, modelled as a list of characters. -/
abbrev Str := List Char

/-- Python whitespace (the characters matched by `\s` and stripped by
`str.strip` for ASCII text). -/
def pySpace (c : Char) : Bool :=
  c == ' ' || c == '\t' || c == '\n' || c == '\r' || c == '\x0b' || c == '\x0c'

/-- The character class of `.` in a Python regex without `DOTALL`:
any character except a newline. -/
def notNL (c : Char) : Bool := c != '\n'

/-- The character class of `\d`. -/
def isDig (c : Char) : Bool := c.isDigit

/-- Python's `needle in hay` on strings: substring containment. -/
def containsSub (needle : Str) : Str → Bool
  | [] => needle.isEmpty
  | c :: rest => needle.isPrefixOf (c :: rest) || containsSub needle rest

/-- Remove trailing `pySpace` characters. -/
def trimRightList : Str → Str
  | [] => []
  | c :: rest =>
    let r := trimRightList rest
    if r.isEmpty && pySpace c then [] else c :: r

/-- Python's `str.strip()`: remove leading and trailing whitespace. -/
def trimList (l : Str) : Str := trimRightList (l.dropWhile pySpace)

/-- Python's `str.lower()` (ASCII-faithful). -/
def pyLower (l : Str) : Str := l.map Char.toLower

/-- The normalisation `text.lower().strip()` performed by
`parse_command` before matching. -/
def pyNormalize (l : Str) : Str := trimList (pyLower l)

/-- Abstract syntax of the regular-expression fragment used by the
source: literals, character classes, concatenation, alternation,
greedy star over a character class, and capturing groups. `+`, `?` and
bounded repetition are derived forms. -/
inductive Re where
  | lit : Str → Re
  | pclass : (Char → Bool) → Re
  | cat : Re → Re → Re
  | alt : Re → Re → Re
  | star : (Char → Bool) → Re
  | grp : Re → Re

/-- A match continuation: receives the remaining input and the
captures recorded so far. -/
abbrev MCont := Str → List Str → Option (Str × List Str)

/-- Greedy star with backtracking: try consuming `n` characters first,
then `n - 1`, ..., down to zero. `n` is the maximal munch. -/
def starMatch (n : Nat) (s : Str) (k : MCont) (caps : List Str) :
    Option (Str × List Str) :=
  match n with
  | 0 => k s caps
  | m + 1 => (k (s.drop (m + 1)) caps) <|> starMatch m s k caps

/-- Backtracking matcher anchored at the start of `s`, in
continuation-passing style.  Preference order mirrors Python `re`:
alternation tries the left branch first, `star` is greedy. -/
def reMatch : Re → Str → MCont → List Str → Option (Str × List Str)
  | .lit l, s, k, caps => if l.isPrefixOf s then k (s.drop l.length) caps else none
  | .pclass p, s, k, caps =>
    match s with
    | [] => none
    | c :: rest => if p c then k rest caps else none
  | .cat a b, s, k, caps => reMatch a s (fun s' caps' => reMatch b s' k caps') caps
  | .alt a b, s, k, caps => (reMatch a s k caps) <|> (reMatch b s k caps)
  | .star p, s, k, caps => starMatch ((s.takeWhile p).length) s k caps
  | .grp a, s, k, caps =>
    reMatch a s (fun s' caps' => k s' (caps' ++ [s.take (s.length - s'.length)])) caps

/-- `re.search`: try to match at each start position, left to right.
On success returns `(full matched text, remaining input, captures)`;
the full matched text is `match.group(0)`, the captures are
`match.group(1)`, `match.group(2)`, ... -/
def reSearch (r : Re) : Str → Option (Str × Str × List Str)
  | [] =>
    match reMatch r [] (fun rest caps => some (rest, caps)) [] with
    | some (rest, caps) => some ([], rest, caps)
    | none => none
  | c :: s' =>
    match reMatch r (c :: s') (fun rest caps => some (rest, caps)) [] with
    | some (rest, caps) =>
      some ((c :: s').take ((c :: s').length - rest.length), rest, caps)
    | none => reSearch r s'

/-- A literal word of a pattern. -/
def word (s : String) : Re := .lit s.toList

/-- `(?:r₁|r₂|...)`: alternation over a list, left branch preferred. -/
def altList : List Re → Re
  | [] => .pclass (fun _ => false)
  | [r] => r
  | r :: rest => .alt r (altList rest)

/-- `r?` (greedy): try `r`, else the empty string. -/
def ropt (r : Re) : Re := .alt r (.lit [])

/-- `p+` over a character class. -/
def rplus (p : Char → Bool) : Re := .cat (.pclass p) (.star p)

/-- `\s+` -/
def ws : Re := rplus pySpace

/-- `(.+)` -/
def dotPlus : Re := rplus notNL

/-! ### The pattern tables of `VoiceCommandParser.__init__`

Each definition below transliterates one pattern string of
`self.task_patterns` / `self.time_patterns`. -/

/-- `(?:create|add|make|new)\s+(?:a\s+)?task\s+(?:to\s+)?(.+)` -/
def createPat1 : Re :=
  .cat (altList [word "create", word "add", word "make", word "new"])
    (.cat ws (.cat (ropt (.cat (word "a") ws))
      (.cat (word "task") (.cat ws (.cat (ropt (.cat (word "to") ws))
        (.grp dotPlus))))))

/-- `(?:i\s+)?(?:need\s+to|want\s+to|have\s+to)\s+(.+)` -/
def createPat2 : Re :=
  .cat (ropt (.cat (word "i") ws))
    (.cat (altList [.cat (word "need") (.cat ws (word "to")),
                    .cat (word "want") (.cat ws (word "to")),
                    .cat (word "have") (.cat ws (word "to"))])
      (.cat ws (.grp dotPlus)))

/-- `(?:remind\s+me\s+to\s+)?(.+)` -/
def createPat3 : Re :=
  .cat (ropt (.cat (word "remind")
      (.cat ws (.cat (word "me") (.cat ws (.cat (word "to") ws))))))
    (.grp dotPlus)

/-- `(?:schedule|plan)\s+(?:to\s+)?(.+)` -/
def createPat4 : Re :=
  .cat (altList [word "schedule", word "plan"])
    (.cat ws (.cat (ropt (.cat (word "to") ws)) (.grp dotPlus)))

/-- `(?:complete|finish|done|finished)\s+(?:task\s+)?(.+)` -/
def completePat1 : Re :=
  .cat (altList [word "complete", word "finish", word "done", word "finished"])
    (.cat ws (.cat (ropt (.cat (word "task") ws)) (.grp dotPlus)))

/-- `(?:mark\s+)?(.+)\s+(?:as\s+)?(?:complete|done|finished)` -/
def completePat2 : Re :=
  .cat (ropt (.cat (word "mark") ws))
    (.cat (.grp dotPlus)
      (.cat ws (.cat (ropt (.cat (word "as") ws))
        (altList [word "complete", word "done", word "finished"]))))

/-- `i(?:\'ve|\s+have)\s+(?:completed|finished|done)\s+(.+)` -/
def completePat3 : Re :=
  .cat (word "i")
    (.cat (altList [word "\x27ve", .cat ws (word "have")])
      (.cat ws (.cat (altList [word "completed", word "finished", word "done"])
        (.cat ws (.grp dotPlus)))))

/-- `(?:show|list|display|get)\s+(?:my\s+)?tasks?` -/
def listPat1 : Re :=
  .cat (altList [word "show", word "list", word "display", word "get"])
    (.cat ws (.cat (ropt (.cat (word "my") ws))
      (.cat (word "task") (ropt (word "s")))))

/-- `what\s+(?:do\s+i\s+)?(?:need\s+to\s+)?(?:do|complete)` -/
def listPat2 : Re :=
  .cat (word "what")
    (.cat ws (.cat (ropt (.cat (word "do") (.cat ws (.cat (word "i") ws))))
      (.cat (ropt (.cat (word "need") (.cat ws (.cat (word "to") ws))))
        (altList [word "do", word "complete"]))))

/-- `(?:what\s+are\s+)?my\s+(?:pending|active|current)\s+tasks?` -/
def listPat3 : Re :=
  .cat (ropt (.cat (word "what") (.cat ws (.cat (word "are") ws))))
    (.cat (word "my")
      (.cat ws (.cat (altList [word "pending", word "active", word "current"])
        (.cat ws (.cat (word "task") (ropt (word "s")))))))

/-- `(?:delete|remove|cancel)\s+(?:task\s+)?(.+)` -/
def deletePat1 : Re :=
  .cat (altList [word "delete", word "remove", word "cancel"])
    (.cat ws (.cat (ropt (.cat (word "task") ws)) (.grp dotPlus)))

/-- `(?:get\s+rid\s+of|eliminate)\s+(.+)` -/
def deletePat2 : Re :=
  .cat (altList [.cat (word "get")
                   (.cat ws (.cat (word "rid") (.cat ws (word "of")))),
                 word "eliminate"])
    (.cat ws (.grp dotPlus))

/-- `(?:update|modify|change)\s+(?:task\s+)?(.+)` -/
def updatePat1 : Re :=
  .cat (altList [word "update", word "modify", word "change"])
    (.cat ws (.cat (ropt (.cat (word "task") ws)) (.grp dotPlus)))

/-- `(?:set|make)\s+(.+)\s+(?:to\s+)?(.+)` -/
def updatePat2 : Re :=
  .cat (altList [word "set", word "make"])
    (.cat ws (.cat (.grp dotPlus)
      (.cat ws (.cat (ropt (.cat (word "to") ws)) (.grp dotPlus)))))

/-- `self.task_patterns`: insertion order of the dict literal. -/
def taskPatterns : List (Str × List Re) :=
  [("create".toList, [createPat1, createPat2, createPat3, createPat4]),
   ("complete".toList, [completePat1, completePat2, completePat3]),
   ("list".toList, [listPat1, listPat2, listPat3]),
   ("delete".toList, [deletePat1, deletePat2]),
   ("update".toList, [updatePat1, updatePat2])]

/-- `(?:by|before|until)\s+(tomorrow|next\s+week|friday|end\s+of\s+day)` -/
def timePat1 : Re :=
  .cat (altList [word "by", word "before", word "until"])
    (.cat ws (.grp (altList
      [word "tomorrow",
       .cat (word "next") (.cat ws (word "week")),
       word "friday",
       .cat (word "end") (.cat ws (.cat (word "of") (.cat ws (word "day"))))])))

/-- `(?:in|within)\s+(\d+)\s+(hours?|days?|weeks?|months?)` -/
def timePat2 : Re :=
  .cat (altList [word "in", word "within"])
    (.cat ws (.cat (.grp (rplus isDig))
      (.cat ws (.grp (altList
        [.cat (word "hour") (ropt (word "s")),
         .cat (word "day") (ropt (word "s")),
         .cat (word "week") (ropt (word "s")),
         .cat (word "month") (ropt (word "s"))])))))

/-- `(?:at|on)\s+(\d{1,2}(?::\d{2})?\s*(?:am|pm)?)` -/
def timePat3 : Re :=
  .cat (altList [word "at", word "on"])
    (.cat ws (.grp (.cat (.pclass isDig)
      (.cat (ropt (.pclass isDig))
        (.cat (ropt (.cat (word ":") (.cat (.pclass isDig) (.pclass isDig))))
          (.cat (.star pySpace) (ropt (altList [word "am", word "pm"]))))))))

/-- `self.time_patterns`. -/
def timePatterns : List Re := [timePat1, timePat2, timePat3]

/-! ### The command parser (`VoiceCommandParser`) -/

/-- The `parameters` dict of a parsed command.  Python uses a string
dictionary; each key that can occur is modelled by an optional field
(`none` means the key is absent). -/
structure Params where
  operation : Option Str := none
  description : Option Str := none
  timeReference : Option Str := none
  priority : Option Str := none
  context : Option Str := none
  rawText : Option Str := none
deriving Repr, DecidableEq

/-- The `VoiceCommand` dataclass (the float `confidence` field, always
`1.0`, carries no information and is omitted). -/
structure VoiceCommand where
  action : Str
  entity : Str
  parameters : Params
  rawText : Str
deriving Repr, DecidableEq

/-- The high-urgency vocabulary of `_extract_parameters`. -/
def highPriorityWords : List Str :=
  ["urgent".toList, "asap".toList, "immediately".toList, "high priority".toList]

/-- The low-urgency vocabulary of `_extract_parameters`. -/
def lowPriorityWords : List Str :=
  ["low".toList, "whenever".toList, "someday".toList]

/-- `VoiceCommandParser._extract_parameters`.  The `operation` and
`entity` arguments are received but unused, exactly as in the source. -/
def extractParameters (text : Str) (operation : Str) (entity : Str) : Params :=
  let timeRef := timePatterns.foldl
    (fun acc pat =>
      match reSearch pat text with
      | some (g0, _, _) => some g0
      | none => acc) none
  let priority :=
    if highPriorityWords.any (fun w => containsSub w text) then "high".toList
    else if lowPriorityWords.any (fun w => containsSub w text) then "low".toList
    else "medium".toList
  let context :=
    if containsSub "work".toList text || containsSub "job".toList text then
      some "work".toList
    else if containsSub "personal".toList text then some "personal".toList
    else none
  { timeReference := timeRef, priority := some priority, context := context }

/-- The inner loop of `parse_command` over one intent's pattern list:
the first pattern whose `re.search` succeeds wins. -/
def firstPatMatch : List Re → Str → Option (Str × Str × List Str)
  | [], _ => none
  | p :: ps, t =>
    match reSearch p t with
    | some r => some r
    | none => firstPatMatch ps t

/-- The outer loop of `parse_command` over the intent table: intents
in table order, first matching pattern across the traversal wins. -/
def firstGroupMatch : List (Str × List Re) → Str → Option (Str × (Str × Str × List Str))
  | [], _ => none
  | (op, pats) :: rest, t =>
    match firstPatMatch pats t with
    | some r => some (op, r)
    | none => firstGroupMatch rest t

/-- `VoiceCommandParser.parse_command`.  Note that the source
reassigns `text = text.lower().strip()` before saving
`original_text = text`, so `raw_text` holds the normalised text. -/
def parseCommand (text : Str) : VoiceCommand :=
  let t := pyNormalize text
  match firstGroupMatch taskPatterns t with
  | some (op, (_, _, caps)) =>
    let entity := trimList (caps.headD [])
    let params := extractParameters t op entity
    { action := op, entity := "task".toList,
      parameters := { params with operation := some op, description := some entity },
      rawText := t }
  | none =>
    { action := "unknown".toList, entity := "unknown".toList,
      parameters := { rawText := some t },
      rawText := t }



/-! ### The task store (`TaskManager`)

Python's `tasks_db` dict (insertion-ordered, keyed by unique ids) is
modelled as a list of task records in insertion order; `uuid.uuid4()`
is modelled by a fresh-id counter and `datetime.now()` by a logical
clock incremented at each call. -/

/-- One task record of `tasks_db`.  `completed_at` is a key that is
absent until `complete_task` adds it, hence an `Option`. -/
structure TaskRec where
  id : Str
  description : Str
  priority : Str
  status : Str
  createdAt : Nat
  dueDate : Option Nat
  voiceCreated : Bool
  completedAt : Option Nat
deriving Repr, DecidableEq

/-- The state of a `TaskManager`: the store plus the fresh-id counter
and the logical clock. -/
structure TMState where
  tasks : List TaskRec
  nextId : Nat
  clock : Nat
deriving Repr, DecidableEq

/-- A freshly constructed `TaskManager` (`tasks_db = {}`). -/
def initState : TMState := ⟨[], 0, 0⟩

/-- Model of `str(uuid.uuid4())`: a fresh unique identifier. -/
def genId (n : Nat) : Str := "task-".toList ++ (Nat.repr n).toList

namespace TaskManager

/-- `TaskManager.create_task`. -/
def createTask (st : TMState) (description : Str) (priority : Str)
    (dueDate : Option Nat) : TMState × Str :=
  let task : TaskRec :=
    { id := genId st.nextId, description := description, priority := priority,
      status := "pending".toList, createdAt := st.clock, dueDate := dueDate,
      voiceCreated := true, completedAt := none }
  ({ tasks := st.tasks ++ [task], nextId := st.nextId + 1, clock := st.clock + 1 },
   "Task created: ".toList ++ description)

/-- Case-insensitive substring test
(`identifier.lower() in task["description"].lower()`). -/
def containsCI (needle hay : Str) : Bool :=
  containsSub (pyLower needle) (pyLower hay)

/-- `TaskManager._find_task`: exact id match first, then the first
task in store order whose description contains the identifier
case-insensitively. -/
def findTask (tasks : List TaskRec) (ident : Str) : Option TaskRec :=
  match tasks.find? (fun t => t.id == ident) with
  | some t => some t
  | none => tasks.find? (fun t => containsCI ident t.description)

/-- `TaskManager.complete_task`. -/
def completeTask (st : TMState) (ident : Str) : TMState × Str :=
  match findTask st.tasks ident with
  | none => (st, "Task not found: ".toList ++ ident)
  | some t =>
    ({ st with
        tasks := st.tasks.map (fun u =>
          if u.id == t.id then
            { u with status := "completed".toList, completedAt := some st.clock }
          else u),
        clock := st.clock + 1 },
     "Marked as completed: ".toList ++ t.description)

/-- `priority_order = {"high": 0, "medium": 1, "low": 2}` with
`.get(priority, 1)`. -/
def priorityOrder (p : Str) : Nat :=
  if p = "high".toList then 0
  else if p = "medium".toList then 1
  else if p = "low".toList then 2
  else 1

/-- The sort key ordering of `list_tasks`:
`(priority_order.get(priority, 1), created_at)` lexicographically. -/
abbrev taskLE (a b : TaskRec) : Prop :=
  priorityOrder a.priority < priorityOrder b.priority ∨
    (priorityOrder a.priority = priorityOrder b.priority ∧ a.createdAt ≤ b.createdAt)

instance : DecidableRel taskLE := fun a b => inferInstanceAs (Decidable (_ ∨ _))

instance : IsTotal TaskRec taskLE :=
  ⟨fun a b => by
    unfold taskLE
    rcases Nat.lt_trichotomy (priorityOrder a.priority) (priorityOrder b.priority)
      with h | h | h
    · exact Or.inl (Or.inl h)
    · rcases Nat.le_total a.createdAt b.createdAt with h' | h'
      · exact Or.inl (Or.inr ⟨h, h'⟩)
      · exact Or.inr (Or.inr ⟨h.symm, h'⟩)
    · exact Or.inr (Or.inl h)⟩

instance : IsTrans TaskRec taskLE :=
  ⟨fun a b c hab hbc => by
    unfold taskLE at *
    rcases hab with h1 | ⟨h1, h1'⟩ <;> rcases hbc with h2 | ⟨h2, h2'⟩
    · exact Or.inl (h1.trans h2)
    · exact Or.inl (h2 ▸ h1)
    · exact Or.inl (h1 ▸ h2)
    · exact Or.inr ⟨h1.trans h2, h1'.trans h2'⟩⟩

/-- `tasks.sort(key=...)`: Python's sort is stable, and any stable
sort by a total preorder has a unique result, so it is modelled by
insertion sort with the non-strict key ordering. -/
def sortTasks (l : List TaskRec) : List TaskRec := l.insertionSort taskLE

/-- The display line of one task in the `list_tasks` output. -/
def taskLine (t : TaskRec) : Str :=
  (if t.status = "completed".toList then "✅".toList else "⏳".toList) ++
    " ".toList ++ t.description ++ " (".toList ++ t.priority ++ " priority)".toList

/-- `"\n".join(...)`. -/
def joinLines : List Str → Str
  | [] => []
  | [l] => l
  | l :: rest => l ++ "\n".toList ++ joinLines rest

/-- `TaskManager.list_tasks`. -/
def listTasks (st : TMState) (statusFilter : Option Str) : Str :=
  let tasks : List TaskRec :=
    match statusFilter with
    | some f => st.tasks.filter (fun t => t.status == f)
    | none => st.tasks
  if tasks.isEmpty then "No tasks found.".toList
  else
    "You have ".toList ++ (Nat.repr tasks.length).toList ++ " tasks:\n".toList ++
      joinLines ((sortTasks tasks).map taskLine)

/-- `TaskManager.delete_task` (`del tasks_db[task_id]` removes the
single entry with that key). -/
def deleteTask (st : TMState) (ident : Str) : TMState × Str :=
  match findTask st.tasks ident with
  | none => (st, "Task not found: ".toList ++ ident)
  | some t =>
    ({ st with tasks := st.tasks.eraseP (fun u => u.id == t.id) },
     "Deleted task: ".toList ++ t.description)

end TaskManager

/-! ### The processor (`ClaraTaskProcessor`)

The task store is the processor's collaborator; each store operation
may raise, modelled by `Except` (`error e` is a raised exception whose
string form is `e`).  The concrete `TaskManager` above never raises. -/

/-- The task-store interface consumed by `_process_task_command`, over
an abstract store state `σ`. -/
structure TaskStore (σ : Type) where
  createTask : σ → Str → Str → Except Str (σ × Str)
  completeTask : σ → Str → Except Str (σ × Str)
  listTasks : σ → Except Str (σ × Str)
  deleteTask : σ → Str → Except Str (σ × Str)

/-- The in-memory `TaskManager` wrapped as a store: never raises. -/
def realStore : TaskStore TMState where
  createTask := fun st d p => .ok (TaskManager.createTask st d p none)
  completeTask := fun st i => .ok (TaskManager.completeTask st i)
  listTasks := fun st => .ok (st, TaskManager.listTasks st none)
  deleteTask := fun st i => .ok (TaskManager.deleteTask st i)

/-- The fixed clarification message of `_process_task_command`. -/
def clarificationMsg : Str :=
  "I need more details about what task you\x27d like me to create or manage.".toList

/-- `ClaraTaskProcessor._process_task_command`.  The emptiness gate on
`description` precedes the dispatch on `operation`, so it applies to
every operation, including `list`. -/
def processTaskCommand {σ : Type} (store : TaskStore σ) (st : σ)
    (command : VoiceCommand) : Except Str (σ × Str) :=
  let operation := command.parameters.operation
  let description := command.parameters.description.getD []
  if description.isEmpty then .ok (st, clarificationMsg)
  else if operation = some "create".toList then
    store.createTask st description (command.parameters.priority.getD "medium".toList)
  else if operation = some "complete".toList then store.completeTask st description
  else if operation = some "list".toList then store.listTasks st
  else if operation = some "delete".toList then store.deleteTask st description
  else if operation = some "update".toList then
    .ok (st, "Task updates aren\x27t implemented yet. I can create, complete, list, and delete tasks.".toList)
  else
    .ok (st, "Unknown task operation: ".toList ++
      (match operation with | some o => o | none => "None".toList))

/-- The four canned guidance strings of `_handle_unknown_command`. -/
def taskHelpMsg : Str :=
  "I can help you manage tasks. Try saying \x27create a task to [description]\x27 or \x27show my tasks\x27.".toList

def fileHelpMsg : Str :=
  "I can help with file operations. Try saying \x27open [filename]\x27 or \x27read [document]\x27.".toList

def browserHelpMsg : Str :=
  "I can help with web browsing. Try saying \x27open [website]\x27 or \x27search for [topic]\x27.".toList

def genericHelpMsg : Str :=
  "I\x27m not sure what you\x27d like me to do. I can help with tasks, files, browsing, and applications. Try being more specific!".toList

/-- `ClaraTaskProcessor._handle_unknown_command`: keyword sniffing over
the (lower-cased) raw command text, task then file then browser
vocabulary, generic fallback last. -/
def handleUnknownCommand (commandText : Str) : Str :=
  let lw := pyLower commandText
  if ["task", "todo", "remind"].any (fun w => containsSub w.toList lw) then
    taskHelpMsg
  else if ["file", "document", "open", "read"].any (fun w => containsSub w.toList lw) then
    fileHelpMsg
  else if ["browser", "web", "search", "google"].any (fun w => containsSub w.toList lw) then
    browserHelpMsg
  else genericHelpMsg

/-- The apology prefix of the top-level `except` handler. -/
def apologyPrefix : Str :=
  "Sorry, I encountered an error processing your request: ".toList

/-- `ClaraTaskProcessor.process_voice_command`: parse, route unknown
input to `_handle_unknown_command`, dispatch task commands, and
convert any store exception into the apology string. -/
def processVoiceCommand {σ : Type} (store : TaskStore σ) (st : σ)
    (commandText : Str) : σ × Str :=
  let command := parseCommand commandText
  if command.action = "unknown".toList then (st, handleUnknownCommand commandText)
  else if command.entity = "task".toList then
    match processTaskCommand store st command with
    | .ok r => r
    | .error e => (st, apologyPrefix ++ e)
  else
    (st, "I understand you want to ".toList ++ command.action ++ " ".toList ++
      command.entity ++ ", but that feature isn\x27t fully implemented yet.".toList)

/-! ### Sequences of store operations (for the store invariant) -/

/-- One direct call to the `TaskManager` interface. -/
inductive TMOp where
  | createOp (desc prio : Str) (due : Option Nat)
  | completeOp (ident : Str)
  | listOp (filter : Option Str)
  | deleteOp (ident : Str)

/-- Apply one call to the store state (`list_tasks` reads only). -/
def applyOp (st : TMState) : TMOp → TMState
  | .createOp d p due => (TaskManager.createTask st d p due).1
  | .completeOp i => (TaskManager.completeTask st i).1
  | .listOp _ => st
  | .deleteOp i => (TaskManager.deleteTask st i).1

/-- Run a sequence of calls from a starting state. -/
def runOps (st : TMState) (ops : List TMOp) : TMState := ops.foldl applyOp st

/-- The store invariant of the spec: `completed_at` is set iff
`status == "completed"`. -/
def completedInv (st : TMState) : Prop :=
  ∀ t ∈ st.tasks, t.completedAt.isSome = true ↔ t.status = "completed".toList

/-! ### Helper lemmas -/

lemma isSome_orElse_left {α : Type} {a : Option α} (b : Option α)
    (h : a.isSome = true) : (a <|> b).isSome = true := by
  cases a with
  | some x => rfl
  | none => cases h

lemma isSome_orElse_right {α : Type} (a : Option α) {b : Option α}
    (h : b.isSome = true) : (a <|> b).isSome = true := by
  cases a with
  | some x => rfl
  | none => simpa using h

lemma starMatch_isSome (n : Nat) (s : Str) (k : MCont) (caps : List Str)
    (hk : ∀ s' c', (k s' c').isSome = true) :
    (starMatch n s k caps).isSome = true := by
  cases n with
  | zero => exact hk _ _
  | succ m => exact isSome_orElse_left _ (hk _ _)

lemma reMatch_dotPlus_isSome (c : Char) (s : Str) (k : MCont) (caps : List Str)
    (hc : notNL c = true) (hk : ∀ s' c', (k s' c').isSome = true) :
    (reMatch dotPlus (c :: s) k caps).isSome = true := by
  unfold dotPlus rplus
  simp only [reMatch, hc, if_true]
  exact starMatch_isSome _ _ _ _ (fun _ _ => hk _ _)

lemma reMatch_createPat3_isSome (c : Char) (s : Str) (k : MCont) (caps : List Str)
    (hc : notNL c = true) (hk : ∀ s' c', (k s' c').isSome = true) :
    (reMatch createPat3 (c :: s) k caps).isSome = true := by
  unfold createPat3 ropt
  simp only [reMatch]
  apply isSome_orElse_right
  simp only [reMatch, List.isPrefixOf_nil_left, if_true, List.length_nil, List.drop_zero]
  exact reMatch_dotPlus_isSome c s _ caps hc (fun _ _ => hk _ _)

lemma reSearch_isSome_of_head (r : Re) (c : Char) (s : Str)
    (h : (reMatch r (c :: s) (fun rest caps => some (rest, caps)) []).isSome = true) :
    (reSearch r (c :: s)).isSome = true := by
  obtain ⟨⟨rest, caps⟩, hx⟩ := Option.isSome_iff_exists.mp h
  simp [reSearch, hx]

lemma firstPatMatch_create_isSome (t : Str)
    (h : (reSearch createPat3 t).isSome = true) :
    ∃ r, firstPatMatch [createPat1, createPat2, createPat3, createPat4] t = some r := by
  obtain ⟨r3, h3⟩ := Option.isSome_iff_exists.mp h
  cases h1 : reSearch createPat1 t with
  | some r => exact ⟨r, by simp [firstPatMatch, h1]⟩
  | none =>
    cases h2 : reSearch createPat2 t with
    | some r => exact ⟨r, by simp [firstPatMatch, h1, h2]⟩
    | none => exact ⟨r3, by simp [firstPatMatch, h1, h2, h3]⟩

lemma firstGroupMatch_create (t : Str)
    (h : (reSearch createPat3 t).isSome = true) :
    ∃ r, firstGroupMatch taskPatterns t = some ("create".toList, r) := by
  obtain ⟨r, hr⟩ := firstPatMatch_create_isSome t h
  exact ⟨r, by simp [taskPatterns, firstGroupMatch, hr]⟩

lemma dropWhile_head_false {p : Char → Bool} :
    ∀ (l : Str) {c : Char} {r : Str}, l.dropWhile p = c :: r → p c = false := by
  intro l
  induction l with
  | nil => intro c r h; cases h
  | cons a t ih =>
    intro c r h
    by_cases hp : p a = true
    · rw [List.dropWhile_cons, if_pos hp] at h
      exact ih h
    · rw [List.dropWhile_cons, if_neg hp] at h
      cases h
      simpa using hp

lemma trimRight_head :
    ∀ (l : Str) {c : Char} {r : Str}, trimRightList l = c :: r → ∃ r₀, l = c :: r₀ := by
  intro l
  cases l with
  | nil => intro c r h; cases h
  | cons a t =>
    intro c r h
    unfold trimRightList at h
    by_cases he : (trimRightList t).isEmpty && pySpace a
    · rw [if_pos he] at h; cases h
    · rw [if_neg he] at h
      cases h
      exact ⟨t, rfl⟩

lemma trim_head_not_space {l : Str} {c : Char} {r : Str}
    (h : trimList l = c :: r) : pySpace c = false := by
  unfold trimList at h
  obtain ⟨r₀, h₀⟩ := trimRight_head _ h
  exact dropWhile_head_false l h₀

lemma notNL_of_not_space {c : Char} (h : pySpace c = false) : notNL c = true := by
  unfold pySpace at h
  unfold notNL
  simp only [Bool.or_eq_false_iff, beq_eq_false_iff_ne, ne_eq] at h
  simpa using h.1.1.1.2

lemma firstGroupMatch_nil : firstGroupMatch taskPatterns [] = none := by decide

/-- Classification of `parse_command`: the action is `unknown` exactly
when the normalised text is empty, and `create` otherwise (the
catch-all third create pattern matches any non-empty text whose first
character is not whitespace, which normalisation guarantees). -/
lemma parse_classification (text : Str) :
    ((parseCommand text).action = "unknown".toList ↔ pyNormalize text = []) ∧
    (pyNormalize text ≠ [] → (parseCommand text).action = "create".toList) := by
  cases ht : pyNormalize text with
  | nil =>
    have hp : (parseCommand text).action = "unknown".toList := by
      simp [parseCommand, ht, firstGroupMatch_nil]
    exact ⟨by simp [hp], fun h => absurd rfl h⟩
  | cons c r =>
    have hsp : pySpace c = false := trim_head_not_space (l := pyLower text) ht
    have hnl : notNL c = true := notNL_of_not_space hsp
    have h3 : (reSearch createPat3 (c :: r)).isSome = true :=
      reSearch_isSome_of_head _ _ _
        (reMatch_createPat3_isSome c r _ [] hnl (fun _ _ => rfl))
    obtain ⟨rr, hrr⟩ := firstGroupMatch_create (c :: r) h3
    have hp : (parseCommand text).action = "create".toList := by
      simp [parseCommand, ht, hrr]
    constructor
    · rw [hp]
      exact ⟨fun h => absurd h (by decide), fun h => absurd h (by simp)⟩
    · intro _; exact hp

/-! ### Claim theorems -/

/-- C1 (counterexample): `"browser"` contains no task vocabulary, yet
`parse_command` returns action `create` (not `unknown`), and
`process_voice_command` creates a task instead of returning one of the
four canned guidance strings. -/
theorem unknown_vocab_counterexample :
    (parseCommand "browser".toList).action = "create".toList ∧
    (((parseCommand "browser".toList).action == "unknown".toList) = false) ∧
    (processVoiceCommand realStore initState "browser".toList).2 =
      "Task created: browser".toList ∧
    ([taskHelpMsg, fileHelpMsg, browserHelpMsg, genericHelpMsg].all
      (fun m => (processVoiceCommand realStore initState "browser".toList).2 != m)) = true :=
  ⟨by decide, by decide, by decide, by decide⟩

/-- C1 (amended): `parse_command` returns `unknown` only for input
whose lower-cased trimmed form is empty (the catch-all create pattern
matches everything else); whenever it does, `process_voice_command`
returns one of the four canned guidance strings, selected by checking
the raw text for task vocabulary first, then file vocabulary, then
browser vocabulary, then falling back to the generic string, first
match winning. -/
theorem unknown_command_guidance (text : Str) :
    ((parseCommand text).action = "unknown".toList ↔ pyNormalize text = []) ∧
    ((parseCommand text).action = "unknown".toList →
      ∀ (σ : Type) (store : TaskStore σ) (st : σ),
        processVoiceCommand store st text = (st, handleUnknownCommand text)) ∧
    (handleUnknownCommand text = taskHelpMsg ∨ handleUnknownCommand text = fileHelpMsg ∨
      handleUnknownCommand text = browserHelpMsg ∨ handleUnknownCommand text = genericHelpMsg) ∧
    (["task", "todo", "remind"].any (fun w => containsSub w.toList (pyLower text)) = true →
      handleUnknownCommand text = taskHelpMsg) ∧
    (["task", "todo", "remind"].any (fun w => containsSub w.toList (pyLower text)) = false →
      ["file", "document", "open", "read"].any (fun w => containsSub w.toList (pyLower text)) = true →
      handleUnknownCommand text = fileHelpMsg) ∧
    (["task", "todo", "remind"].any (fun w => containsSub w.toList (pyLower text)) = false →
      ["file", "document", "open", "read"].any (fun w => containsSub w.toList (pyLower text)) = false →
      ["browser", "web", "search", "google"].any (fun w => containsSub w.toList (pyLower text)) = true →
      handleUnknownCommand text = browserHelpMsg) ∧
    (["task", "todo", "remind"].any (fun w => containsSub w.toList (pyLower text)) = false →
      ["file", "document", "open", "read"].any (fun w => containsSub w.toList (pyLower text)) = false →
      ["browser", "web", "search", "google"].any (fun w => containsSub w.toList (pyLower text)) = false →
      handleUnknownCommand text = genericHelpMsg) := by
  refine ⟨(parse_classification text).1, ?_, ?_, ?_, ?_, ?_, ?_⟩
  · intro h σ store st
    simp [processVoiceCommand, h]
  · simp only [handleUnknownCommand]
    split_ifs <;> simp
  · intro h; simp only [handleUnknownCommand]; rw [h]; simp
  · intro h1 h2; simp only [handleUnknownCommand]; rw [h1, h2]; simp
  · intro h1 h2 h3; simp only [handleUnknownCommand]; rw [h1, h2, h3]; simp
  · intro h1 h2 h3; simp only [handleUnknownCommand]; rw [h1, h2, h3]; simp

/-- Witness for C1 (amended): on whitespace-only input the action is
`unknown` and the entry point returns the generic fallback string. -/
theorem unknown_command_guidance_witness :
    processVoiceCommand realStore initState "   ".toList =
      (initState, handleUnknownCommand "   ".toList) ∧
    handleUnknownCommand "   ".toList = genericHelpMsg :=
  ⟨(unknown_command_guidance "   ".toList).2.1 (by decide) TMState realStore initState,
   (unknown_command_guidance "   ".toList).2.2.2.2.2.2 (by decide) (by decide) (by decide)⟩

/-- C2: any input whose lower-cased trimmed form is non-empty parses
to action `create` (the create intent's catch-all pattern matches any
such text), and the action is `unknown` exactly when the trimmed input
is empty. -/
theorem parse_create_catchall (text : Str) :
    (pyNormalize text ≠ [] → (parseCommand text).action = "create".toList) ∧
    ((parseCommand text).action = "unknown".toList ↔ pyNormalize text = []) :=
  ⟨(parse_classification text).2, (parse_classification text).1⟩

/-- Witness for C2 at the concrete input `"hello"`. -/
theorem parse_create_catchall_witness :
    (parseCommand "hello".toList).action = "create".toList :=
  (parse_create_catchall "hello".toList).1 (by decide)

/-- C4 (counterexample): on `"by tomorrow in 2 hours"` the first
temporal pattern in list order matches (with full text
`"by tomorrow"`), but the recorded time reference is `"in 2 hours"`,
the full text of the *last* matching pattern. -/
theorem time_reference_counterexample :
    (reSearch timePat1 "by tomorrow in 2 hours".toList).map (fun r => r.1) =
      some "by tomorrow".toList ∧
    (extractParameters "by tomorrow in 2 hours".toList [] []).timeReference =
      some "in 2 hours".toList ∧
    (("in 2 hours".toList : Str) == "by tomorrow".toList) = false :=
  ⟨by decide, by decide, by decide⟩

/-- C4 (amended): the temporal patterns are scanned in their fixed
list order with no early exit, each match overwriting the previous
one, so the recorded time reference is the full matched text of the
*last* pattern in list order that matches; at most one time reference
is recorded. -/
theorem time_reference_last_match (t operation entity : Str) :
    (extractParameters t operation entity).timeReference =
      (((reSearch timePat3 t).map (fun r => r.1)) <|>
        (((reSearch timePat2 t).map (fun r => r.1)) <|>
          ((reSearch timePat1 t).map (fun r => r.1)))) := by
  unfold extractParameters
  simp only [timePatterns, List.foldl]
  rcases h1 : reSearch timePat1 t with - | ⟨g1, r1, c1⟩ <;>
    rcases h2 : reSearch timePat2 t with - | ⟨g2, r2, c2⟩ <;>
      rcases h3 : reSearch timePat3 t with - | ⟨g3, r3, c3⟩ <;>
        simp [h1, h2, h3]

/-- C5: whenever an intent pattern matched, the extracted priority is
`high` if the normalised text contains any high-urgency word (`urgent`
anywhere suffices), otherwise `low` if it contains any low-urgency
word, otherwise `medium`; the high check precedes the low check, and
the result is independent of which intent matched. -/
theorem priority_extraction (text : Str)
    (h : (parseCommand text).action ≠ "unknown".toList) :
    (containsSub "urgent".toList (pyNormalize text) = true →
      (parseCommand text).parameters.priority = some "high".toList) ∧
    (highPriorityWords.any (fun w => containsSub w (pyNormalize text)) = true →
      (parseCommand text).parameters.priority = some "high".toList) ∧
    (highPriorityWords.any (fun w => containsSub w (pyNormalize text)) = false →
      lowPriorityWords.any (fun w => containsSub w (pyNormalize text)) = true →
      (parseCommand text).parameters.priority = some "low".toList) ∧
    (highPriorityWords.any (fun w => containsSub w (pyNormalize text)) = false →
      lowPriorityWords.any (fun w => containsSub w (pyNormalize text)) = false →
      (parseCommand text).parameters.priority = some "medium".toList) ∧
    (∀ op₁ ent₁ op₂ ent₂ : Str,
      (extractParameters (pyNormalize text) op₁ ent₁).priority =
        (extractParameters (pyNormalize text) op₂ ent₂).priority) := by
  cases hm : firstGroupMatch taskPatterns (pyNormalize text) with
  | none =>
    have : (parseCommand text).action = "unknown".toList := by
      simp [parseCommand, hm]
    exact absurd this h
  | some pr =>
    obtain ⟨op, g0, rest, caps⟩ := pr
    have hpar : (parseCommand text).parameters.priority =
        (extractParameters (pyNormalize text) op (trimList (caps.headD []))).priority := by
      simp [parseCommand, hm]
    have hpr : ∀ o e : Str, (extractParameters (pyNormalize text) o e).priority =
        some (if highPriorityWords.any (fun w => containsSub w (pyNormalize text)) then
                "high".toList
              else if lowPriorityWords.any (fun w => containsSub w (pyNormalize text)) then
                "low".toList
              else "medium".toList) := fun o e => rfl
    refine ⟨?_, ?_, ?_, ?_, fun o₁ e₁ o₂ e₂ => (hpr o₁ e₁).trans (hpr o₂ e₂).symm⟩
    · intro hu
      have hh : highPriorityWords.any (fun w => containsSub w (pyNormalize text)) = true := by
        simp [highPriorityWords]
        exact Or.inl hu
      rw [hpar, hpr, hh, if_pos rfl]
    · intro hh; rw [hpar, hpr, hh, if_pos rfl]
    · intro hh hl; rw [hpar, hpr, hh, hl]; simp
    · intro hh hl; rw [hpar, hpr, hh, hl]; simp

/-- Witness for C5 at `"urgent low"`: both vocabularies present, so
the priority resolves to `high`. -/
theorem priority_extraction_witness :
    (parseCommand "urgent low".toList).parameters.priority = some "high".toList :=
  (priority_extraction "urgent low".toList (by decide)).1 (by decide)

/-- A dispatched `list` command whose description is empty, as
`parse_command` would shape it (list patterns have no capture group). -/
def listCmdNoDesc : VoiceCommand :=
  { action := "list".toList, entity := "task".toList,
    parameters := { operation := some "list".toList, description := some [],
                    priority := some "medium".toList },
    rawText := "show my tasks".toList }

/-- A store state holding one task, to show `list` does not proceed. -/
def oneTaskState : TMState :=
  ⟨[⟨"id-1".toList, "buy milk".toList, "high".toList, "pending".toList,
     0, none, true, none⟩], 1, 1⟩

/-- C3 (counterexample): the `list` operation is *not* exempt from the
empty-description gate: dispatching a `list` command with empty
description over a non-empty store returns the clarification message,
not the listing. -/
theorem list_not_exempt_counterexample :
    processTaskCommand realStore oneTaskState listCmdNoDesc =
      .ok (oneTaskState, clarificationMsg) ∧
    ((TaskManager.listTasks oneTaskState none == clarificationMsg) = false) :=
  ⟨rfl, by decide⟩

/-- C3 (amended): for every command whose description is empty — the
operation being `create`, `complete`, `delete`, `update`, *or* `list`
— dispatch returns the fixed clarification message without making any
task-store call (the result is the same for every store). -/
theorem empty_description_gate {σ : Type} (store : TaskStore σ) (st : σ)
    (cmd : VoiceCommand) (h : cmd.parameters.description.getD [] = []) :
    processTaskCommand store st cmd = .ok (st, clarificationMsg) := by
  unfold processTaskCommand
  rw [h]
  simp

/-- Witness for C3 (amended) at the concrete `list` command. -/
theorem empty_description_gate_witness :
    processTaskCommand realStore initState listCmdNoDesc =
      .ok (initState, clarificationMsg) :=
  empty_description_gate realStore initState listCmdNoDesc (by decide)

/-- C7: the lookup first attempts an exact identifier match; failing
that it returns the first task in store order whose description
contains the identifier case-insensitively; if both miss it returns
nothing and `complete`/`delete` answer with the not-found response. -/
theorem find_task_spec (tasks : List TaskRec) (ident : Str) :
    (∀ t, TaskManager.findTask tasks ident = some t →
      t ∈ tasks ∧
        ((t.id = ident ∧ ∃ pre post, tasks = pre ++ t :: post ∧
            ∀ u ∈ pre, u.id ≠ ident) ∨
         ((∀ u ∈ tasks, u.id ≠ ident) ∧
            TaskManager.containsCI ident t.description = true ∧
            ∃ pre post, tasks = pre ++ t :: post ∧
              ∀ u ∈ pre, TaskManager.containsCI ident u.description = false))) ∧
    (TaskManager.findTask tasks ident = none ↔
      ∀ t ∈ tasks, t.id ≠ ident ∧ TaskManager.containsCI ident t.description = false) ∧
    (∀ st : TMState, TaskManager.findTask st.tasks ident = none →
      TaskManager.completeTask st ident = (st, "Task not found: ".toList ++ ident) ∧
      TaskManager.deleteTask st ident = (st, "Task not found: ".toList ++ ident)) := by
  refine ⟨?_, ?_, ?_⟩
  · intro t ht
    unfold TaskManager.findTask at ht
    cases hid : tasks.find? (fun u => u.id == ident) with
    | some u =>
      rw [hid] at ht
      cases ht
      obtain ⟨hu, pre, post, heq, hpre⟩ := List.find?_eq_some.mp hid
      refine ⟨by rw [heq]; simp, Or.inl ⟨by simpa using hu, pre, post, heq, ?_⟩⟩
      intro v hv
      have := hpre v hv
      simpa using this
    | none =>
      rw [hid] at ht
      have hall : ∀ u ∈ tasks, u.id ≠ ident := by
        intro u hu
        have := List.find?_eq_none.mp hid u hu
        simpa using this
      obtain ⟨hu, pre, post, heq, hpre⟩ := List.find?_eq_some.mp ht
      refine ⟨by rw [heq]; simp, Or.inr ⟨hall, hu, pre, post, heq, ?_⟩⟩
      intro v hv
      have := hpre v hv
      simpa using this
  · constructor
    · intro hnone t htm
      unfold TaskManager.findTask at hnone
      cases hid : tasks.find? (fun u => u.id == ident) with
      | some u => rw [hid] at hnone; cases hnone
      | none =>
        rw [hid] at hnone
        refine ⟨by simpa using List.find?_eq_none.mp hid t htm, ?_⟩
        simpa using List.find?_eq_none.mp hnone t htm
    · intro hall
      unfold TaskManager.findTask
      have h1 : tasks.find? (fun u => u.id == ident) = none := by
        rw [List.find?_eq_none]
        intro u hu
        simpa using (hall u hu).1
      have h2 : tasks.find? (fun u => TaskManager.containsCI ident u.description) = none := by
        rw [List.find?_eq_none]
        intro u hu
        simpa using (hall u hu).2
      rw [h1, h2]
  · intro st hnone
    constructor
    · unfold TaskManager.completeTask
      rw [hnone]
    · unfold TaskManager.deleteTask
      rw [hnone]

/-- A concrete task used by the C7 witness. -/
def milkTask : TaskRec :=
  ⟨"id-1".toList, "Buy Milk".toList, "high".toList, "pending".toList, 0, none, true, none⟩

/-- Witness for C7: a case-insensitive substring lookup hit, and the
not-found response of `complete_task` on an empty store. -/
theorem find_task_spec_witness :
    milkTask ∈ [milkTask] ∧
    TaskManager.completeTask initState "x".toList =
      (initState, "Task not found: x".toList) :=
  ⟨((find_task_spec [milkTask] "milk".toList).1 milkTask (by decide)).1,
   ((find_task_spec [] "x".toList).2.2 initState (by decide)).1⟩

/-- The three tasks of the C6 example store: `A` high created at 1,
`B` low created at 2, `C` high created at 0. -/
def exampleTasksState : TMState :=
  ⟨[⟨"id-a".toList, "A".toList, "high".toList, "pending".toList, 1, none, true, none⟩,
    ⟨"id-b".toList, "B".toList, "low".toList, "pending".toList, 2, none, true, none⟩,
    ⟨"id-c".toList, "C".toList, "high".toList, "pending".toList, 0, none, true, none⟩],
   3, 3⟩

/-- C6: `list_tasks` on an empty store returns exactly
`"No tasks found."`; on a non-empty store the rendered order is a
permutation of the store sorted by priority (high before medium before
low) then by creation time ascending; in particular the example store
`{A: high t1, B: low t2, C: high t0}` is listed `C, A, B`. -/
theorem list_tasks_spec :
    TaskManager.listTasks initState none = "No tasks found.".toList ∧
    (∀ l : List TaskRec,
      List.Sorted TaskManager.taskLE (TaskManager.sortTasks l) ∧
      List.Perm (TaskManager.sortTasks l) l) ∧
    TaskManager.listTasks exampleTasksState none =
      "You have 3 tasks:\n⏳ C (high priority)\n⏳ A (high priority)\n⏳ B (low priority)".toList :=
  ⟨rfl,
   fun l => ⟨List.sorted_insertionSort TaskManager.taskLE l,
             List.perm_insertionSort TaskManager.taskLE l⟩,
   by decide⟩

/-- A store whose every operation raises, for the C9 witness. -/
def errStore : TaskStore Unit where
  createTask := fun _ _ _ => .error "boom".toList
  completeTask := fun _ _ => .error "boom".toList
  listTasks := fun _ => .error "boom".toList
  deleteTask := fun _ _ => .error "boom".toList

lemma firstGroupMatch_op_mem :
    ∀ (gs : List (Str × List Re)) (t op : Str) (r : Str × Str × List Str),
      firstGroupMatch gs t = some (op, r) → op ∈ gs.map Prod.fst := by
  intro gs
  induction gs with
  | nil => intro t op r h; cases h
  | cons g rest ih =>
    intro t op r h
    obtain ⟨gop, gpats⟩ := g
    unfold firstGroupMatch at h
    cases hp : firstPatMatch gpats t with
    | some rr =>
      rw [hp] at h
      cases h
      simp
    | none =>
      rw [hp] at h
      simpa using Or.inr (ih t op r h)

/-- C9: `process_voice_command` always returns a plain string (its
result type), and whenever the task-store collaborator raises during
dispatch the exception is caught and converted into the apology string
embedding the error detail. -/
theorem process_never_raises {σ : Type} (store : TaskStore σ) (st : σ)
    (text : Str) (e : Str)
    (h : processTaskCommand store st (parseCommand text) = .error e) :
    processVoiceCommand store st text = (st, apologyPrefix ++ e) := by
  cases hm : firstGroupMatch taskPatterns (pyNormalize text) with
  | none =>
    have hok : processTaskCommand store st (parseCommand text) =
        .ok (st, clarificationMsg) := by
      simp [parseCommand, hm, processTaskCommand]
    rw [hok] at h
    cases h
  | some pr =>
    obtain ⟨op, g0, rest, caps⟩ := pr
    have hop : op ∈ taskPatterns.map Prod.fst :=
      firstGroupMatch_op_mem taskPatterns (pyNormalize text) op (g0, rest, caps) hm
    have hopne : ¬ op = "unknown".toList := by
      simp [taskPatterns] at hop
      rcases hop with h' | h' | h' | h' | h' <;> (subst h'; decide)
    have haction : (parseCommand text).action = op := by
      simp [parseCommand, hm]
    have hentity : (parseCommand text).entity = "task".toList := by
      simp [parseCommand, hm]
    simp only [processVoiceCommand]
    rw [haction, hentity, if_neg hopne, if_pos rfl, h]

/-- Witness for C9: a store whose operations all raise `"boom"` makes
the entry point return the apology string for `"buy milk"`. -/
theorem process_never_raises_witness :
    processVoiceCommand errStore () "buy milk".toList =
      ((), apologyPrefix ++ "boom".toList) :=
  process_never_raises errStore () "buy milk".toList "boom".toList (by rfl)

lemma completedInv_preserved (st : TMState) (op : TMOp) (h : completedInv st) :
    completedInv (applyOp st op) := by
  cases op with
  | createOp d p due =>
    intro t ht
    simp only [applyOp, TaskManager.createTask, List.mem_append,
      List.mem_singleton] at ht
    rcases ht with ht | ht
    · exact h t ht
    · subst ht
      simp
  | completeOp i =>
    intro t ht
    simp only [applyOp, TaskManager.completeTask] at ht
    cases hf : TaskManager.findTask st.tasks i with
    | none =>
      rw [hf] at ht
      exact h t ht
    | some u =>
      rw [hf] at ht
      simp only [List.mem_map] at ht
      obtain ⟨v, hv, rfl⟩ := ht
      by_cases hb : (v.id == u.id) = true
      · simp [hb]
      · simp only [hb, if_neg, Bool.false_eq_true, not_false_eq_true, if_false]
        exact h v hv
  | listOp f => exact h
  | deleteOp i =>
    intro t ht
    simp only [applyOp, TaskManager.deleteTask] at ht
    cases hf : TaskManager.findTask st.tasks i with
    | none =>
      rw [hf] at ht
      exact h t ht
    | some u =>
      rw [hf] at ht
      exact h t ((List.eraseP_sublist st.tasks).subset ht)

/-- C10: in every store state reachable from the initial state by any
sequence of `create_task`, `complete_task`, `list_tasks` and
`delete_task` calls, a task's `completed_at` is set if and only if its
status is `completed`. -/
theorem completed_iff_completedAt (ops : List TMOp) :
    completedInv (runOps initState ops) := by
  have hrun : ∀ (l : List TMOp) (st : TMState),
      completedInv st → completedInv (runOps st l) := by
    intro l
    induction l with
    | nil => intro st h; exact h
    | cons o rest ih =>
      intro st h
      exact ih (applyOp st o) (completedInv_preserved st o h)
  exact hrun ops initState (fun t ht => absurd ht (by simp [initState]))

/-- The operation sequence of the C10 witness. -/
def opsExample : List TMOp :=
  [TMOp.createOp "a".toList "high".toList none, TMOp.completeOp "a".toList]

/-- Witness for C10: after creating and completing one task, that
task's `completed_at` is set, via the invariant. -/
theorem completed_iff_completedAt_witness :
    (⟨genId 0, "a".toList, "high".toList, "completed".toList, 0, none, true,
      some 1⟩ : TaskRec).completedAt.isSome = true :=
  (completed_iff_completedAt opsExample
    ⟨genId 0, "a".toList, "high".toList, "completed".toList, 0, none, true, some 1⟩
    (by decide)).mpr (by decide)


lemma isPrefixOf_self (l : Str) : l.isPrefixOf l = true := by
  induction l with
  | nil => rfl
  | cons c r ih => simp [List.isPrefixOf_cons₂, ih]

lemma containsSub_refl (l : Str) : containsSub l l = true := by
  cases l with
  | nil => rfl
  | cons c r => simp [containsSub, isPrefixOf_self]

lemma containsCI_refl (s : Str) : TaskManager.containsCI s s = true :=
  containsSub_refl (pyLower s)

lemma findTask_singleton (t : TaskRec) (ident : Str)
    (hd : TaskManager.containsCI ident t.description = true) :
    TaskManager.findTask [t] ident = some t := by
  unfold TaskManager.findTask
  cases hb : t.id == ident with
  | true => simp [List.find?, hb]
  | false => simp [List.find?, hb, hd]

/-- The single task as created by the C8 round trip. -/
def rtTask0 (desc prio : Str) : TaskRec :=
  ⟨genId 0, desc, prio, "pending".toList, 0, none, true, none⟩

/-- The same task after completion. -/
def rtTask1 (desc prio : Str) : TaskRec :=
  ⟨genId 0, desc, prio, "completed".toList, 0, none, true, some 1⟩

/-- State after `create_task(desc, prio)` on a fresh manager. -/
def rtState1 (desc prio : Str) : TMState :=
  (TaskManager.createTask initState desc prio none).1

/-- State after the subsequent `complete_task(desc)`. -/
def rtState2 (desc prio : Str) : TMState :=
  (TaskManager.completeTask (rtState1 desc prio) desc).1

/-- State after the subsequent `delete_task(desc)`. -/
def rtState3 (desc prio : Str) : TMState :=
  (TaskManager.deleteTask (rtState2 desc prio) desc).1

/-- C8: for every description and priority, create then complete then
list shows the task completed; delete then makes list omit it and a
further complete answers not-found. -/
theorem create_complete_delete_roundtrip (desc prio : Str) :
    (TaskManager.createTask initState desc prio none).2 =
      "Task created: ".toList ++ desc ∧
    (TaskManager.completeTask (rtState1 desc prio) desc).2 =
      "Marked as completed: ".toList ++ desc ∧
    (rtState2 desc prio).tasks = [rtTask1 desc prio] ∧
    (rtTask1 desc prio).status = "completed".toList ∧
    (rtTask1 desc prio).description = desc ∧
    TaskManager.listTasks (rtState2 desc prio) none =
      "You have 1 tasks:\n✅ ".toList ++ desc ++ " (".toList ++ prio ++
        " priority)".toList ∧
    (rtState3 desc prio).tasks = [] ∧
    TaskManager.listTasks (rtState3 desc prio) none = "No tasks found.".toList ∧
    (TaskManager.completeTask (rtState3 desc prio) desc).2 =
      "Task not found: ".toList ++ desc := by
  have hs1 : rtState1 desc prio = ⟨[rtTask0 desc prio], 1, 1⟩ := rfl
  have hcomp : TaskManager.completeTask (rtState1 desc prio) desc =
      (⟨[rtTask1 desc prio], 1, 2⟩, "Marked as completed: ".toList ++ desc) := by
    rw [hs1]
    unfold TaskManager.completeTask
    rw [show TaskManager.findTask (TMState.mk [rtTask0 desc prio] 1 1).tasks desc =
          some (rtTask0 desc prio) from findTask_singleton _ _ (containsCI_refl desc)]
    simp [rtTask0, rtTask1]
  have hs2 : rtState2 desc prio = ⟨[rtTask1 desc prio], 1, 2⟩ := by
    unfold rtState2
    rw [hcomp]
  have hdel : TaskManager.deleteTask ⟨[rtTask1 desc prio], 1, 2⟩ desc =
      (⟨[], 1, 2⟩, "Deleted task: ".toList ++ desc) := by
    unfold TaskManager.deleteTask
    rw [show TaskManager.findTask (TMState.mk [rtTask1 desc prio] 1 2).tasks desc =
          some (rtTask1 desc prio) from
        findTask_singleton _ _ (containsCI_refl desc)]
    simp [rtTask1, List.eraseP]
  have hs3 : rtState3 desc prio = ⟨[], 1, 2⟩ := by
    unfold rtState3
    rw [hs2, hdel]
  refine ⟨rfl, by rw [hcomp], by rw [hs2], rfl, rfl, ?_, by rw [hs3], by rw [hs3]; rfl,
    by rw [hs3]; rfl⟩
  rw [hs2]
  unfold TaskManager.listTasks TaskManager.sortTasks TaskManager.taskLine
    TaskManager.joinLines
  simp [rtTask1, List.append_assoc, show Nat.repr 1 = "1" from rfl]
